import Mathlib

/-!
# Verification of the NeoFS SFTP gateway virtual-filesystem adapter

Shallow embedding of the handler package of the gateway (`handlers/app.go`,
`handlers/data.go`, in both its lineage variants: the in-memory-buffer
variant and the temp-file / container-creating variant) together with a
pure model of the backend storage (containers and objects reached through
the connection pool).  Machine identifiers (container IDs, object IDs) are
modelled as naturals with an injective textual encoding standing in for
base58; byte payloads are lists of naturals; `time.Time` values are unix
seconds as integers, with the Go zero time kept as its actual unix value.
Every adapter operation also returns the list of backend calls it issued,
so that frame properties ("no backend call is made") are expressible.
-/

/-- Error values returned by the adapter (each corresponds to one error
construction site in the source). -/
inductive Err where
  /-- `fmt.Errorf("not found")` -/
  | notFound
  /-- `sftp.ErrSSHFxPermissionDenied` -/
  | permissionDenied
  /-- `errors.New("unsupported")` / `fmt.Errorf("unsupported")` -/
  | unsupported
  /-- `fmt.Errorf("supported only first level dirs")` -/
  | mkdirDepth
  /-- `fmt.Errorf("invalid placement policy: %w", err)` -/
  | invalidPolicy
  /-- error of `id.DecodeString` on a malformed identifier string -/
  | decodeFail
  /-- `fmt.Errorf("couldn't get file stat")` -/
  | statMismatch
  /-- any error surfaced by the backend client (pool) -/
  | backend
  /-- `errors.New("objReader.ReadAt: negative offset")` -/
  | negOffset
  /-- driver artifact: out of fuel in the iterated-read driver -/
  | fuelOut
deriving DecidableEq, Repr

/-- Outcome of an adapter operation: normal return, error return, or a
runtime crash (nil-pointer dereference). -/
inductive Outcome (α : Type) where
  | ok (val : α)
  | fail (e : Err)
  | crashed
deriving DecidableEq, Repr

/-- One call issued against the backend client. -/
inductive BCall where
  /-- `SearchObjects` (root filter, optional FileName filter) -/
  | searchObjs (cnr : Nat) (nameFilter : Option String)
  /-- `HeadObject` at address (container, object) -/
  | headObj (cnr oid : Nat)
  /-- `GetContainer` -/
  | getCnr (cnr : Nat)
  /-- `ListContainers` for an owner -/
  | listCnrs (owner : Nat)
  /-- `ObjectRange` over `[off, off+len)` -/
  | rangeObj (cnr oid : Nat) (off len : Nat)
  /-- `PutObject` into a container -/
  | putObj (cnr : Nat)
  /-- `DeleteObject` -/
  | delObj (cnr oid : Nat)
  /-- `DeleteContainer` -/
  | delCnr (cnr : Nat)
  /-- `ContainerPut` with a display name -/
  | putCnr (name : String)
deriving DecidableEq, Repr

/-- Basic ACL of a container (only privateness is relevant to the claims). -/
inductive ACL where
  | priv
  | other
deriving DecidableEq, Repr

/-- The Go zero `time.Time`, as unix seconds (`time.Time{}.Unix()`). -/
def goZeroTime : Int := -62135596800

/-- A container stored in the backend.  `createdAt = none` models a
missing / unparseable timestamp attribute, for which the SDK
`CreatedAt` accessor yields the zero time. -/
structure Cnr where
  id : Nat
  owner : Nat
  name : String
  createdAt : Option Int
  policy : String
  acl : ACL
deriving DecidableEq, Repr

/-- An object stored in the backend. -/
structure Obj where
  id : Nat
  cnr : Nat
  root : Bool
  attrs : List (String × String)
  payload : List Nat
deriving DecidableEq, Repr

/-- The backend store reachable through the pool, with failure-injection
lists for `HeadObject` and `GetContainer`. -/
structure Backend where
  containers : List Cnr
  objects : List Obj
  nextOid : Nat
  nextCid : Nat
  headFail : List Nat
  cnrGetFail : List Nat
deriving DecidableEq, Repr

/-- `handlers.SftpServerConfig` plus the identity / default-policy fields
of `handlers.App`. -/
structure AppCfg where
  readOnly : Bool
  owner : Nat
  defaultPolicy : String
deriving DecidableEq, Repr

/-- `handlers.ContainerInfo` (data.go). -/
structure ContainerInfo where
  CID : Nat
  FileName : String
  Created : Int
deriving DecidableEq, Repr

/-- `handlers.ObjectInfo` (data.go). -/
structure ObjectInfo where
  Container : ContainerInfo
  ObjectID : Nat
  FilePath : String
  FileName : String
  PayloadSize : Int
  Created : Int
deriving DecidableEq, Repr

/-- The `os.FileInfo` returned by stat / list: either a container entry or
an object entry. -/
inductive StatEntry where
  | cnrE (c : ContainerInfo)
  | objE (o : ObjectInfo)
deriving DecidableEq, Repr

/-- `ContainerInfo.Name`. -/
def ContainerInfo.name (c : ContainerInfo) : String := c.FileName

/-- `ContainerInfo.Size` (always 0). -/
def ContainerInfo.size (_ : ContainerInfo) : Int := 0

/-- `ContainerInfo.IsDir` (always true). -/
def ContainerInfo.isDir (_ : ContainerInfo) : Bool := true

/-- `ObjectInfo.Name`. -/
def ObjectInfo.name (o : ObjectInfo) : String := o.FileName

/-- `ObjectInfo.Size`. -/
def ObjectInfo.size (o : ObjectInfo) : Int := o.PayloadSize

/-- `ObjectInfo.IsDir` (always false). -/
def ObjectInfo.isDir (_ : ObjectInfo) : Bool := false

/-- `IsDir` of a listed entry. -/
def StatEntry.isDir : StatEntry → Bool
  | .cnrE c => c.isDir
  | .objE o => o.isDir

/-- `Size` of a listed entry. -/
def StatEntry.size : StatEntry → Int
  | .cnrE c => c.size
  | .objE o => o.size

/-- Character-list core of `strings.Split(s, "/")`. -/
def splitSeg : List Char → List (List Char)
  | [] => [[]]
  | c :: cs =>
    if c = '/' then [] :: splitSeg cs
    else
      match splitSeg cs with
      | [] => [[c]]
      | t :: ts => (c :: t) :: ts

/-- `strings.Split(s, "/")` (the only separator the source splits on). -/
def goSplit (s : String) : List String := (splitSeg s.data).map String.mk

/-- `strings.TrimPrefix(s, pre)`. -/
def goTrim (s pre : String) : String :=
  if pre.data.isPrefixOf s.data then String.mk (s.data.drop pre.data.length) else s

/-- Injective textual encoding of a machine identifier, standing in for
the base58 form produced by `EncodeToString` / `String`. -/
def encodeId (n : Nat) : String := String.mk ('#' :: List.replicate n 'x')

/-- Partial inverse of `encodeId`, standing in for `DecodeString`:
succeeds exactly on the image of `encodeId`. -/
def decodeId (s : String) : Option Nat :=
  match s.data with
  | '#' :: rest => if rest.all (· = 'x') then some rest.length else none
  | _ => none

/-- `strconv.ParseInt(v, 10, 64)` as used on attribute values. -/
def goParseInt (s : String) : Option Int := s.toInt?

/-- Result paired with the backend calls issued (read-only operations). -/
abbrev Res (α : Type) := Outcome α × List BCall

/-- Sequencing of read-only adapter steps, accumulating backend calls. -/
def rbind {α β : Type} (x : Res α) (f : α → Res β) : Res β :=
  match x with
  | (.ok a, cs) =>
    match f a with
    | (r, cs2) => (r, cs ++ cs2)
  | (.fail e, cs) => (.fail e, cs)
  | (.crashed, cs) => (.crashed, cs)

/-- Lookup of an object by address in the store (first match). -/
def findObj (s : Backend) (cnrID oid : Nat) : Option Obj :=
  s.objects.find? (fun o => o.id = oid && o.cnr = cnrID)

/-- Backend `HeadObject`. -/
def headObject (s : Backend) (cnrID oid : Nat) : Outcome Obj :=
  if oid ∈ s.headFail then .fail .backend
  else
    match findObj s cnrID oid with
    | some o => .ok o
    | none => .fail .backend

/-- Backend `GetContainer`. -/
def cnrGet (s : Backend) (cid : Nat) : Outcome Cnr :=
  if cid ∈ s.cnrGetFail then .fail .backend
  else
    match s.containers.find? (fun c => c.id = cid) with
    | some c => .ok c
    | none => .fail .backend

/-- Backend `ListContainers(owner)`: container ids in store order. -/
def cnrList (s : Backend) (owner : Nat) : List Nat :=
  (s.containers.filter (fun c => c.owner = owner)).map Cnr.id

/-- First value of an attribute key on a stored object. -/
def attrVal (o : Obj) (k : String) : Option String :=
  (o.attrs.find? (fun kv => kv.1 = k)).map Prod.snd

/-- Backend `SearchObjects` with the root filter: object ids in store
order. -/
def searchRoot (s : Backend) (cnrID : Nat) : List Nat :=
  ((s.objects.filter (fun o => o.root && o.cnr = cnrID)).map Obj.id)

/-- Backend `SearchObjects` with the root filter and a `FileName`
equality filter. -/
def searchByName (s : Backend) (cnrID : Nat) (nm : String) : List Nat :=
  ((s.objects.filter
      (fun o => o.root && o.cnr = cnrID && attrVal o "FileName" = some nm)).map Obj.id)

/-- `App.getContainer` (app.go, both variants — including the inverted
`IsZero` comparison on the backend creation time). -/
def getContainerR (s : Backend) (now : Int) (cid : Nat) : Res ContainerInfo :=
  match cnrGet s cid with
  | .ok c =>
    let fn := if c.name.length ≠ 0 then c.name else encodeId cid
    let ct := c.createdAt.getD goZeroTime
    let created := if ct = goZeroTime then ct else now
    (.ok { CID := cid, FileName := fn, Created := created }, [.getCnr cid])
  | .fail e => (.fail e, [.getCnr cid])
  | .crashed => (.crashed, [.getCnr cid])

/-- Loop body shared by `App.listContainers` / `App.getContainers`
(iterating the listed ids, heading each and deduplicating by display
name, first seen wins, failing fast on a fetch error). -/
def listCnrsAux (s : Backend) (now : Int) : List Nat → List String → Res (List ContainerInfo)
  | [], _ => (.ok [], [])
  | cid :: rest, seen =>
    match getContainerR s now cid with
    | (.ok c, cs) =>
      if c.name ∈ seen then
        match listCnrsAux s now rest seen with
        | (r, cs2) => (r, cs ++ cs2)
      else
        match listCnrsAux s now rest (c.name :: seen) with
        | (.ok tail, cs2) => (.ok (c :: tail), cs ++ cs2)
        | (r, cs2) => (r, cs ++ cs2)
    | (.fail e, cs) => (.fail e, cs)
    | (.crashed, cs) => (.crashed, cs)

/-- `App.listContainers` = `App.getContainers` (the two are verbatim
duplicates in the source). -/
def containersListR (s : Backend) (cfg : AppCfg) (now : Int) : Res (List ContainerInfo) :=
  match listCnrsAux s now (cnrList s cfg.owner) [] with
  | (r, cs) => (r, .listCnrs cfg.owner :: cs)

/-- `App.getContainerByName`: decode as id first, else linear scan of the
owned containers by display name. -/
def getContainerByNameR (s : Backend) (cfg : AppCfg) (now : Int) (nm : String) : Res ContainerInfo :=
  match decodeId nm with
  | some cid => getContainerR s now cid
  | none =>
    rbind (containersListR s cfg now) fun cnrs =>
      match cnrs.find? (fun c => c.name = nm) with
      | some c => (.ok c, [])
      | none => (.fail .notFound, [])

/-- One attribute step of `App.getObjectFile` (independent `if`s on
Timestamp / FileName / FilePath keys). -/
def applyAttr (fi : ObjectInfo) (kv : String × String) : ObjectInfo :=
  let fi :=
    if kv.1 = "Timestamp" then
      match goParseInt kv.2 with
      | some t => { fi with Created := t }
      | none => fi
    else fi
  let fi := if kv.1 = "FileName" then { fi with FileName := kv.2 } else fi
  if kv.1 = "FilePath" then { fi with FilePath := kv.2 } else fi

/-- The `ObjectInfo` constructed by `App.getObjectFile` from a head
result. -/
def buildObjInfo (now : Int) (cnrID : Nat) (o : Obj) : ObjectInfo :=
  o.attrs.foldl applyAttr
    { Container := { CID := cnrID, FileName := "", Created := goZeroTime }
      ObjectID := o.id
      FilePath := ""
      FileName := encodeId o.id
      PayloadSize := (o.payload.length : Int)
      Created := now }

/-- `App.getObjectFile`. -/
def getObjectFileR (s : Backend) (now : Int) (cnrID oid : Nat) : Res ObjectInfo :=
  match headObject s cnrID oid with
  | .ok o => (.ok (buildObjInfo now cnrID o), [.headObj cnrID oid])
  | .fail e => (.fail e, [.headObj cnrID oid])
  | .crashed => (.crashed, [.headObj cnrID oid])

/-- `App.getObjectFileByName`: root+FileName search, keep the first id
(the iteration callback stops after one), then head it. -/
def getObjectFileByNameR (s : Backend) (now : Int) (cnrID : Nat) (nm : String) : Res ObjectInfo :=
  match (searchByName s cnrID nm).head? with
  | none => (.fail .notFound, [.searchObjs cnrID (some nm)])
  | some oid =>
    match getObjectFileR s now cnrID oid with
    | (r, cs) => (r, .searchObjs cnrID (some nm) :: cs)

/-- Loop body of `App.listObjects`.  The source checks the stale outer
`err` (always nil inside the iteration) instead of `inErr`, so a failed
head leaves `obj` nil and the subsequent `obj.Name()` dereferences a nil
pointer: a fetch error surfaces as a crash, not as a propagated error. -/
def listObjectsAux (s : Backend) (now : Int) (cnrID : Nat) : List Nat → List String → Res (List ObjectInfo)
  | [], _ => (.ok [], [])
  | oid :: rest, seen =>
    match getObjectFileR s now cnrID oid with
    | (.ok o, cs) =>
      if o.name ∈ seen then
        match listObjectsAux s now cnrID rest seen with
        | (r, cs2) => (r, cs ++ cs2)
      else
        match listObjectsAux s now cnrID rest (o.name :: seen) with
        | (.ok tail, cs2) => (.ok (o :: tail), cs ++ cs2)
        | (r, cs2) => (r, cs ++ cs2)
    | (.fail _, cs) => (.crashed, cs)
    | (.crashed, cs) => (.crashed, cs)

/-- `App.listObjects`. -/
def listObjectsR (s : Backend) (now : Int) (cnrID : Nat) : Res (List ObjectInfo) :=
  match listObjectsAux s now cnrID (searchRoot s cnrID) [] with
  | (r, cs) => (r, .searchObjs cnrID none :: cs)

/-- `App.listPath`. -/
def listPathR (s : Backend) (cfg : AppCfg) (now : Int) (path : String) : Res (List StatEntry) :=
  let p := goTrim path "/"
  if p = "" then
    rbind (containersListR s cfg now) fun cnrs => (.ok (cnrs.map StatEntry.cnrE), [])
  else
    rbind (getContainerByNameR s cfg now p) fun cnr =>
      rbind (listObjectsR s now cnr.CID) fun objs => (.ok (objs.map StatEntry.objE), [])

/-- `App.getFileStat`. -/
def getFileStatR (s : Backend) (cfg : AppCfg) (now : Int) (path : String) : Res StatEntry :=
  let p := goTrim path "/"
  if p = "" then
    (.ok (.cnrE { CID := 0, FileName := "/", Created := now }), [])
  else
    let split := goSplit p
    rbind (getContainerByNameR s cfg now (split.headD "")) fun cnr =>
      if split.length = 2 ∧ (split.getD 1 "") ≠ "" then
        match decodeId (split.getD 1 "") with
        | none => (.fail .decodeFail, [])
        | some oid =>
          rbind (getObjectFileR s now cnr.CID oid) fun o => (.ok (.objE o), [])
      else
        (.ok (.cnrE cnr), [])

/-- `App.Filelist` (methods List, Stat, Readlink). -/
def filelistR (s : Backend) (cfg : AppCfg) (now : Int) (method path : String) : Res (List StatEntry) :=
  if method = "List" then listPathR s cfg now path
  else if method = "Stat" then
    rbind (getFileStatR s cfg now path) fun st => (.ok [st], [])
  else (.fail .unsupported, [])

/-- `App.Fileread` (method Get): stat the path and require an object
entry, which becomes the bound file of the returned reader. -/
def filereadR (s : Backend) (cfg : AppCfg) (now : Int) (path : String) : Res ObjectInfo :=
  rbind (getFileStatR s cfg now path) fun st =>
    match st with
    | .objE o => (.ok o, [])
    | .cnrE _ => (.fail .statMismatch, [])

/-- Result of `objReader.ReadAt`: the bytes read into the buffer together
with the returned error slot (nil / io.EOF / a real error). -/
inductive ReadRes where
  | okR (bs : List Nat)
  | eofR (bs : List Nat)
  | fail (e : Err)
deriving DecidableEq, Repr

/-- Bytes delivered by a `ReadAt` call. -/
def ReadRes.out : ReadRes → List Nat
  | .okR bs => bs
  | .eofR bs => bs
  | .fail _ => []

/-- Whether the call signalled end-of-stream (`io.EOF`). -/
def ReadRes.isEof : ReadRes → Bool
  | .eofR _ => true
  | _ => false

/-- `objReader.ReadAt` (identical in both variants): reject negative
offsets, signal EOF at or past the reported size, clamp the requested
length to the available length, issue a single range fetch and fill the
buffer with `io.ReadFull`, downgrading a short read to `io.EOF`.
`L` is the caller buffer length `len(b)`. -/
def objReaderReadAt (s : Backend) (fi : ObjectInfo) (L : Nat) (off : Int) : ReadRes × List BCall :=
  if off < 0 then (.fail .negOffset, [])
  else if fi.PayloadSize ≤ off then (.eofR [], [])
  else
    let length : Nat := min L (fi.PayloadSize - off).toNat
    let call := BCall.rangeObj fi.Container.CID fi.ObjectID off.toNat length
    match findObj s fi.Container.CID fi.ObjectID with
    | none => (.fail .backend, [call])
    | some o =>
      if off.toNat + length ≤ o.payload.length then
        let bs := (o.payload.drop off.toNat).take length
        if bs.length < L then (.eofR bs, [call]) else (.okR bs, [call])
      else (.fail .backend, [call])

/-- Driver iterating `ReadAt` with a buffer of length `B` from offset
`off`, accumulating the bytes until end-of-stream (the read pattern of
the round-trip scenario). -/
def readLoop (s : Backend) (fi : ObjectInfo) (B : Nat) : Nat → Nat → List Nat → Outcome (List Nat)
  | 0, _, _ => .fail .fuelOut
  | fuel + 1, off, acc =>
    match (objReaderReadAt s fi B (off : Int)).1 with
    | .eofR bs => .ok (acc ++ bs)
    | .okR bs => readLoop s fi B fuel (off + bs.length) (acc ++ bs)
    | .fail e => .fail e

/-- Read the whole object through ranged reads of buffer length `B`. -/
def readFully (s : Backend) (fi : ObjectInfo) (B fuel : Nat) : Outcome (List Nat) :=
  readLoop s fi B fuel 0 []

/-- State of the in-memory-variant `objWriter`: the bound (not yet
uploaded) `ObjectInfo` and the staged `bytes.Buffer`. -/
structure WriterV1 where
  file : ObjectInfo
  buffer : List Nat
deriving DecidableEq, Repr

/-- `App.Filewrite` (in-memory variant): resolve the first path segment
to a container and bind a fresh writer with an empty staging buffer. -/
def filewriteV1 (s : Backend) (cfg : AppCfg) (now : Int) (path : String) : Res WriterV1 :=
  if cfg.readOnly then (.fail .permissionDenied, [])
  else
    let trimmed := goTrim path "/"
    let split := goSplit trimmed
    rbind (getContainerByNameR s cfg now (split.headD "")) fun cnr =>
      (.ok { file := { Container := cnr
                       ObjectID := 0
                       FilePath := ""
                       FileName := goTrim trimmed (split.headD "" ++ "/")
                       PayloadSize := 0
                       Created := goZeroTime }
             buffer := [] }, [])

/-- `objWriter.WriteAt` (in-memory variant): only a write at the current
buffer length is accepted; it appends and reports `len(p)`. -/
def objWriterWriteAt (w : WriterV1) (p : List Nat) (off : Int) : Outcome Nat × WriterV1 × List BCall :=
  if off ≠ (w.buffer.length : Int) then (.fail .unsupported, w, [])
  else (.ok p.length, { w with buffer := w.buffer ++ p }, [])

/-- Iterate `WriteAt`, always writing at the current buffer length (the
sequential pattern of an SFTP upload). -/
def writeAllAt (w : WriterV1) : List (List Nat) → WriterV1
  | [] => w
  | p :: ps => writeAllAt (objWriterWriteAt w p (w.buffer.length : Int)).2.1 ps

/-- `objWriter.Close` (in-memory variant): assemble FileName / Timestamp
attributes and upload the staged buffer as one new object; the backend
assigns the fresh object id. -/
def closeV1 (s : Backend) (nowC : Int) (w : WriterV1) : Outcome Unit × Backend × List BCall :=
  let attrs := [("FileName", w.file.name), ("Timestamp", toString nowC)]
  let o : Obj := { id := s.nextOid
                   cnr := w.file.Container.CID
                   root := true
                   attrs := attrs
                   payload := w.buffer }
  (.ok (), { s with objects := s.objects ++ [o], nextOid := s.nextOid + 1 },
    [.putObj w.file.Container.CID])

/-- Backend `DeleteObject`. -/
def objectDelete (s : Backend) (cnrID oid : Nat) : Outcome Unit × Backend × List BCall :=
  match findObj s cnrID oid with
  | some _ =>
    (.ok (), { s with objects := s.objects.filter (fun o => ¬(o.id = oid ∧ o.cnr = cnrID)) },
      [.delObj cnrID oid])
  | none => (.fail .backend, s, [.delObj cnrID oid])

/-- `App.deleteContainer`. -/
def containerDelete (s : Backend) (cid : Nat) : Outcome Unit × Backend × List BCall :=
  if (s.containers.filter (fun c => c.id ≠ cid)).length = s.containers.length
  then (.fail .backend, s, [.delCnr cid])
  else (.ok (), { s with containers := s.containers.filter (fun c => c.id ≠ cid) }, [.delCnr cid])

/-- `App.deleteNeofsFile`: resolve the bucket; with a two-segment path
resolve the object by display-name search and delete it, otherwise
delete the whole bucket. -/
def deleteNeofsFileR (s : Backend) (cfg : AppCfg) (now : Int) (path : String) : Outcome Unit × Backend × List BCall :=
  let p := goTrim path "/"
  let split := goSplit p
  match getContainerByNameR s cfg now (split.headD "") with
  | (.ok cnr, cs) =>
    if split.length = 2 ∧ (split.getD 1 "") ≠ "" then
      match getObjectFileByNameR s now cnr.CID (split.getD 1 "") with
      | (.ok o, cs2) =>
        match objectDelete s cnr.CID o.ObjectID with
        | (r, s2, cs3) => (r, s2, cs ++ cs2 ++ cs3)
      | (.fail e, cs2) => (.fail e, s, cs ++ cs2)
      | (.crashed, cs2) => (.crashed, s, cs ++ cs2)
    else
      match containerDelete s cnr.CID with
      | (r, s2, cs3) => (r, s2, cs ++ cs3)
  | (.fail e, cs) => (.fail e, s, cs)
  | (.crashed, cs) => (.crashed, s, cs)

/-- `App.Filecmd` of the in-memory variant: read-only gate, an empty
Mkdir case (plain success), Remove/Rmdir delete, and success without any
action for every other method (Setstat, Rename, Link, Symlink). -/
def filecmdV1 (s : Backend) (cfg : AppCfg) (now : Int) (method path : String) : Outcome Unit × Backend × List BCall :=
  if cfg.readOnly then (.fail .permissionDenied, s, [])
  else if method = "Mkdir" then (.ok (), s, [])
  else if method = "Remove" ∨ method = "Rmdir" then deleteNeofsFileR s cfg now path
  else (.ok (), s, [])

/-- Placement-policy parsing (`netmap.PlacementPolicy.DecodeString`),
abstracted: a policy string decodes (to itself) exactly when non-empty. -/
def decodePolicy (s : String) : Option String :=
  if s = "" then none else some s

/-- `App.putContainer` (container-creating variant): decode the default
policy and create a private container named `nm`, owned by the
configured identity, timestamped now. -/
def putContainerR (s : Backend) (cfg : AppCfg) (now : Int) (nm : String) : Outcome Unit × Backend × List BCall :=
  match decodePolicy cfg.defaultPolicy with
  | none => (.fail .invalidPolicy, s, [])
  | some pol =>
    let c : Cnr := { id := s.nextCid
                     owner := cfg.owner
                     name := nm
                     createdAt := some now
                     policy := pol
                     acl := .priv }
    (.ok (), { s with containers := s.containers ++ [c], nextCid := s.nextCid + 1 },
      [.putCnr nm])

/-- `App.Filecmd` of the container-creating variant: as `filecmdV1`, but
Mkdir rejects nested paths and otherwise creates the container. -/
def filecmdV2 (s : Backend) (cfg : AppCfg) (now : Int) (method path : String) : Outcome Unit × Backend × List BCall :=
  if cfg.readOnly then (.fail .permissionDenied, s, [])
  else if method = "Mkdir" then
    let p := goTrim path "/"
    if (goSplit p).length > 1 then (.fail .mkdirDepth, s, [])
    else putContainerR s cfg now p
  else if method = "Remove" ∨ method = "Rmdir" then deleteNeofsFileR s cfg now path
  else (.ok (), s, [])

/-- First-seen-wins deduplication by a key, as a pure fold (the
specification-level form of the `existedFiles` map scans). -/
def dedupByName {α : Type} (k : α → String) : List α → List α
  | [] => []
  | x :: xs => x :: dedupByName k (xs.filter (fun y => k y ≠ k x))
termination_by l => l.length
decreasing_by
  simp only [List.length_cons, Nat.lt_succ_iff]
  exact List.length_filter_le _ _

/-- The object infos of a bucket in backend enumeration order (what the
listing heads, before deduplication). -/
def objEnumInfos (s : Backend) (now : Int) (cnrID : Nat) : List ObjectInfo :=
  (s.objects.filter (fun o => o.root && o.cnr = cnrID)).map (buildObjInfo now cnrID)

/-- The container infos owned by the configured identity in backend
enumeration order (what the listing fetches, before deduplication). -/
def cnrEnumInfos (s : Backend) (cfg : AppCfg) (now : Int) : List ContainerInfo :=
  (s.containers.filter (fun c => c.owner = cfg.owner)).map
    (fun c =>
      { CID := c.id
        FileName := if c.name.length ≠ 0 then c.name else encodeId c.id
        Created := if c.createdAt.getD goZeroTime = goZeroTime then goZeroTime else now })


/-! ## Concrete fixtures used to instantiate the claims -/

/-- A gateway configuration: read-write, owner 7, valid default policy. -/
def fixCfg : AppCfg := { readOnly := false, owner := 7, defaultPolicy := "REP 1" }

/-- A stored container named `b1`, without a creation-time attribute. -/
def fixCnr : Cnr :=
  { id := 1, owner := 7, name := "b1", createdAt := none, policy := "REP 1", acl := .priv }

/-- A backend holding only the `b1` container. -/
def fixS : Backend :=
  { containers := [fixCnr], objects := [], nextOid := 5, nextCid := 2
    headFail := [], cnrGetFail := [] }

/-- The `ContainerInfo` entry the adapter builds for `b1`. -/
def fixCnrInfo : ContainerInfo := { CID := 1, FileName := "b1", Created := goZeroTime }

/-- The writer state produced by `Filewrite` on `/b1/report.txt` over `fixS`. -/
def fixW : WriterV1 :=
  { file := { Container := fixCnrInfo
              ObjectID := 0
              FilePath := ""
              FileName := "report.txt"
              PayloadSize := 0
              Created := goZeroTime }
    buffer := [] }

/-- A stored three-byte object in container 1. -/
def fixObj : Obj :=
  { id := 2, cnr := 1, root := true, attrs := [("FileName", "f.txt")], payload := [10, 20, 30] }

/-- A backend holding `b1` and the three-byte object. -/
def fixSObj : Backend :=
  { containers := [fixCnr], objects := [fixObj], nextOid := 5, nextCid := 2
    headFail := [], cnrGetFail := [] }

/-- The `ObjectInfo` a reader is bound to for `fixObj`. -/
def fixInfo : ObjectInfo :=
  { Container := { CID := 1, FileName := "", Created := goZeroTime }
    ObjectID := 2
    FilePath := ""
    FileName := "f.txt"
    PayloadSize := 3
    Created := 0 }

/-- Backend with one container carrying a non-zero creation timestamp and
one carrying none. -/
def fixS6 : Backend :=
  { containers :=
      [{ id := 1, owner := 7, name := "b", createdAt := some 1700000000
         policy := "REP 1", acl := .priv },
       { id := 2, owner := 7, name := "", createdAt := none
         policy := "REP 1", acl := .priv }]
    objects := [], nextOid := 1, nextCid := 3, headFail := [], cnrGetFail := [] }

/-- Backend where the head of the only enumerated object fails. -/
def fixS7 : Backend :=
  { containers := [{ id := 1, owner := 7, name := "a", createdAt := none
                     policy := "REP 1", acl := .priv }]
    objects := [{ id := 5, cnr := 1, root := true, attrs := [("FileName", "f")], payload := [] }]
    nextOid := 9, nextCid := 9, headFail := [5], cnrGetFail := [] }

/-- Backend where the metadata fetch of the only listed container fails. -/
def fixS7b : Backend :=
  { containers := [{ id := 1, owner := 7, name := "a", createdAt := none
                     policy := "REP 1", acl := .priv }]
    objects := [], nextOid := 9, nextCid := 9, headFail := [], cnrGetFail := [1] }


/-- Backend with two objects sharing display name `dup` in container 1 and
two containers sharing display name `bb`. -/
def fixS8 : Backend :=
  { containers :=
      [{ id := 1, owner := 7, name := "bb", createdAt := none, policy := "REP 1", acl := .priv },
       { id := 2, owner := 7, name := "bb", createdAt := none, policy := "REP 1", acl := .priv }]
    objects :=
      [{ id := 3, cnr := 1, root := true, attrs := [("FileName", "dup")], payload := [1] },
       { id := 4, cnr := 1, root := true, attrs := [("FileName", "dup")], payload := [2] }]
    nextOid := 9, nextCid := 9, headFail := [], cnrGetFail := [] }

/-! ## Helper lemmas -/

theorem encodeId_ne_empty (n : Nat) : encodeId n ≠ "" := by
  intro h
  have h2 := congrArg String.data h
  simp only [encodeId] at h2
  exact List.cons_ne_nil _ _ h2

theorem decodeId_encodeId (n : Nat) : decodeId (encodeId n) = some n := by
  simp only [decodeId, encodeId]
  rw [if_pos]
  · simp
  · simp [List.all_eq_true, List.mem_replicate]

theorem splitSeg_ne_nil (cs : List Char) : splitSeg cs ≠ [] := by
  induction cs with
  | nil => simp [splitSeg]
  | cons c cs ih =>
    simp only [splitSeg]
    split
    · simp
    · cases h : splitSeg cs with
      | nil => exact absurd h ih
      | cons t ts => simp [h]

theorem splitSeg_singleton {cs l : List Char} (h : splitSeg cs = [l]) : l = cs := by
  induction cs generalizing l with
  | nil =>
    simp only [splitSeg] at h
    injection h with h1 _
    exact h1.symm
  | cons c cs ih =>
    simp only [splitSeg] at h
    split at h
    · injection h with _ h2
      exact absurd h2 (splitSeg_ne_nil cs)
    · cases hsp : splitSeg cs with
      | nil => exact absurd hsp (splitSeg_ne_nil cs)
      | cons t ts =>
        rw [hsp] at h
        injection h with h1 h2
        subst h2
        have ht : t = cs := ih hsp
        subst ht
        exact h1.symm

theorem goSplit_singleton {s t : String} (h : goSplit s = [t]) : t = s := by
  simp only [goSplit] at h
  cases hsp : splitSeg s.data with
  | nil => exact absurd hsp (splitSeg_ne_nil s.data)
  | cons a as =>
    rw [hsp] at h
    simp only [List.map_cons] at h
    injection h with h1 h2
    have has : as = [] := List.map_eq_nil_iff.mp h2
    subst has
    have ha : a = s.data := splitSeg_singleton hsp
    rw [← h1, ha]

theorem applyAttr_frame (fi : ObjectInfo) (kv : String × String) :
    (applyAttr fi kv).PayloadSize = fi.PayloadSize ∧
    (applyAttr fi kv).Container = fi.Container ∧
    (applyAttr fi kv).ObjectID = fi.ObjectID := by
  simp only [applyAttr]
  by_cases h1 : kv.1 = "Timestamp" <;>
    by_cases h2 : kv.1 = "FileName" <;>
      by_cases h3 : kv.1 = "FilePath" <;>
        simp [h1, h2, h3] <;>
          (cases hp : goParseInt kv.2 <;> simp [hp])

theorem foldl_applyAttr_frame (attrs : List (String × String)) (fi : ObjectInfo) :
    (attrs.foldl applyAttr fi).PayloadSize = fi.PayloadSize ∧
    (attrs.foldl applyAttr fi).Container = fi.Container ∧
    (attrs.foldl applyAttr fi).ObjectID = fi.ObjectID := by
  induction attrs generalizing fi with
  | nil => exact ⟨rfl, rfl, rfl⟩
  | cons kv rest ih =>
    simp only [List.foldl_cons]
    obtain ⟨h1, h2, h3⟩ := applyAttr_frame fi kv
    obtain ⟨g1, g2, g3⟩ := ih (applyAttr fi kv)
    exact ⟨g1.trans h1, g2.trans h2, g3.trans h3⟩

theorem buildObjInfo_payloadSize (now : Int) (cnrID : Nat) (o : Obj) :
    (buildObjInfo now cnrID o).PayloadSize = (o.payload.length : Int) :=
  (foldl_applyAttr_frame o.attrs _).1

theorem buildObjInfo_container (now : Int) (cnrID : Nat) (o : Obj) :
    (buildObjInfo now cnrID o).Container = { CID := cnrID, FileName := "", Created := goZeroTime } :=
  (foldl_applyAttr_frame o.attrs _).2.1

theorem buildObjInfo_objectID (now : Int) (cnrID : Nat) (o : Obj) :
    (buildObjInfo now cnrID o).ObjectID = o.id :=
  (foldl_applyAttr_frame o.attrs _).2.2

theorem find?_unique_key {α : Type} (key : α → Nat) {l : List α} {c : α}
    (hnd : (l.map key).Nodup) (hc : c ∈ l) (p : α → Bool)
    (hpc : p c = true) (hp : ∀ x, p x = true → key x = key c) :
    l.find? p = some c := by
  induction l with
  | nil => cases hc
  | cons x xs ih =>
    simp only [List.map_cons, List.nodup_cons] at hnd
    by_cases hpx : p x = true
    · rw [List.find?_cons_of_pos _ hpx]
      rcases List.mem_cons.mp hc with h | h
      · rw [h]
      · exfalso
        have hk : key x = key c := hp x hpx
        have : key c ∈ xs.map key := List.mem_map_of_mem key h
        rw [← hk] at this
        exact hnd.1 this
    · rw [List.find?_cons_of_neg _ hpx]
      rcases List.mem_cons.mp hc with h | h
      · exact absurd (h ▸ hpc) hpx
      · exact ih hnd.2 h

theorem objReaderReadAt_spec (s : Backend) (fi : ObjectInfo) (o : Obj) (L : Nat) (off : Int)
    (hfind : findObj s fi.Container.CID fi.ObjectID = some o)
    (hsz : fi.PayloadSize = (o.payload.length : Int))
    (h0 : 0 ≤ off) (hlt : off < fi.PayloadSize) :
    objReaderReadAt s fi L off =
      ((if o.payload.length - off.toNat < L
        then .eofR ((o.payload.drop off.toNat).take (min L (o.payload.length - off.toNat)))
        else .okR ((o.payload.drop off.toNat).take (min L (o.payload.length - off.toNat)))),
       [BCall.rangeObj fi.Container.CID fi.ObjectID off.toNat
          (min L (o.payload.length - off.toNat))]) := by
  have hltN : off.toNat < o.payload.length := by
    rw [hsz] at hlt
    omega
  have htn : (fi.PayloadSize - off).toNat = o.payload.length - off.toNat := by
    rw [hsz]
    omega
  simp only [objReaderReadAt, hfind, htn]
  rw [if_neg (by omega), if_neg (by rw [hsz]; omega)]
  have hmle : min L (o.payload.length - off.toNat) ≤ o.payload.length - off.toNat :=
    Nat.min_le_right _ _
  rw [if_pos (by omega)]
  have hlen : ((o.payload.drop off.toNat).take (min L (o.payload.length - off.toNat))).length
      = min L (o.payload.length - off.toNat) := by
    simp only [List.length_take, List.length_drop]
    omega
  rw [hlen]
  by_cases hc : min L (o.payload.length - off.toNat) < L
  · rw [if_pos hc, if_pos (by omega)]
  · rw [if_neg hc, if_neg (by omega)]

theorem readLoop_spec (s : Backend) (fi : ObjectInfo) (o : Obj) (B : Nat)
    (hfind : findObj s fi.Container.CID fi.ObjectID = some o)
    (hsz : fi.PayloadSize = (o.payload.length : Int))
    (hB : 1 ≤ B) :
    ∀ fuel off acc, off ≤ o.payload.length → o.payload.length - off < fuel →
      readLoop s fi B fuel off acc = .ok (acc ++ o.payload.drop off) := by
  intro fuel
  induction fuel with
  | zero => intro off acc _ h2; omega
  | succ n ih =>
    intro off acc h1 h2
    by_cases hend : o.payload.length ≤ off
    · have hv : objReaderReadAt s fi B (off : Int) = (.eofR [], []) := by
        simp only [objReaderReadAt]
        rw [if_neg (by omega), if_pos (by rw [hsz]; exact_mod_cast hend)]
      simp only [readLoop, hv]
      rw [List.drop_eq_nil_iff.mpr hend]
    · have hlt : off < o.payload.length := by omega
      have hv := objReaderReadAt_spec s fi o B (off : Int) hfind hsz (by omega)
        (by rw [hsz]; exact_mod_cast hlt)
      simp only [Int.toNat_natCast] at hv
      by_cases hc : o.payload.length - off < B
      · rw [if_pos hc] at hv
        simp only [readLoop, hv]
        have hm : min B (o.payload.length - off) = o.payload.length - off := by omega
        rw [hm]
        rw [List.take_of_length_le (by simp)]
      · rw [if_neg hc] at hv
        simp only [readLoop, hv]
        have hm : min B (o.payload.length - off) = B := by omega
        rw [hm]
        have hblen : ((o.payload.drop off).take B).length = B := by
          simp only [List.length_take, List.length_drop]
          omega
        rw [hblen, ih (off + B) (acc ++ (o.payload.drop off).take B) (by omega) (by omega)]
        have hsplit2 : (o.payload.drop off).take B ++ o.payload.drop (off + B) = o.payload.drop off := by
          rw [← List.drop_drop, List.take_append_drop]
        rw [List.append_assoc, hsplit2]

theorem dedupByName_cons {α : Type} (k : α → String) (x : α) (xs : List α) :
    dedupByName k (x :: xs) = x :: dedupByName k (xs.filter (fun y => k y ≠ k x)) := by
  rw [dedupByName]

theorem dedupByName_subset_aux {α : Type} (k : α → String) :
    ∀ n (l : List α), l.length ≤ n → ∀ y ∈ dedupByName k l, y ∈ l := by
  intro n
  induction n with
  | zero =>
    intro l hl y hy
    rw [List.length_eq_zero.mp (Nat.le_zero.mp hl)] at hy
    simp [dedupByName] at hy
  | succ n ih =>
    intro l hl y hy
    cases l with
    | nil => simp [dedupByName] at hy
    | cons x xs =>
      rw [dedupByName_cons] at hy
      rcases List.mem_cons.mp hy with h | h
      · exact h ▸ List.mem_cons_self x xs
      · have hlen : (xs.filter (fun y => k y ≠ k x)).length ≤ n := by
          have := List.length_filter_le (fun y => decide (k y ≠ k x)) xs
          simp only [List.length_cons] at hl
          omega
        exact List.mem_cons_of_mem x (List.mem_of_mem_filter (ih _ hlen y h))

theorem dedupByName_subset {α : Type} (k : α → String) (l : List α) {y : α}
    (hy : y ∈ dedupByName k l) : y ∈ l :=
  dedupByName_subset_aux k l.length l (Nat.le_refl _) y hy

theorem dedupByName_nodup_aux {α : Type} (k : α → String) :
    ∀ n (l : List α), l.length ≤ n → ((dedupByName k l).map k).Nodup := by
  intro n
  induction n with
  | zero =>
    intro l hl
    rw [List.length_eq_zero.mp (Nat.le_zero.mp hl)]
    simp [dedupByName]
  | succ n ih =>
    intro l hl
    cases l with
    | nil => simp [dedupByName]
    | cons x xs =>
      rw [dedupByName_cons]
      simp only [List.map_cons, List.nodup_cons]
      constructor
      · intro hmem
        rcases List.mem_map.mp hmem with ⟨y, hy, hky⟩
        have hyf := dedupByName_subset k _ hy
        have := (List.mem_filter.mp hyf).2
        simp only [decide_eq_true_eq] at this
        exact this hky
      · have hlen : (xs.filter (fun y => k y ≠ k x)).length ≤ n := by
          have := List.length_filter_le (fun y => decide (k y ≠ k x)) xs
          simp only [List.length_cons] at hl
          omega
        exact ih _ hlen

theorem dedupByName_nodup {α : Type} (k : α → String) (l : List α) :
    ((dedupByName k l).map k).Nodup :=
  dedupByName_nodup_aux k l.length l (Nat.le_refl _)

theorem dedupByName_find_aux {α : Type} (k : α → String) :
    ∀ n (l : List α), l.length ≤ n → ∀ y ∈ dedupByName k l,
      l.find? (fun x => k x = k y) = some y := by
  intro n
  induction n with
  | zero =>
    intro l hl y hy
    rw [List.length_eq_zero.mp (Nat.le_zero.mp hl)] at hy
    simp [dedupByName] at hy
  | succ n ih =>
    intro l hl y hy
    cases l with
    | nil => simp [dedupByName] at hy
    | cons x xs =>
      rw [dedupByName_cons] at hy
      rcases List.mem_cons.mp hy with h | h
      · subst h
        exact List.find?_cons_of_pos _ (by simp)
      · have hyf := dedupByName_subset k _ h
        have hne : k y ≠ k x := by
          have := (List.mem_filter.mp hyf).2
          simpa using this
        rw [List.find?_cons_of_neg _ (by simpa using fun hxy => hne hxy.symm)]
        have hlen : (xs.filter (fun z => k z ≠ k x)).length ≤ n := by
          have := List.length_filter_le (fun z => decide (k z ≠ k x)) xs
          simp only [List.length_cons] at hl
          omega
        have hfind := ih _ hlen y h
        rw [List.find?_filter] at hfind
        have hpe : (fun a => decide (k a ≠ k x) ∧ decide (k a = k y) : α → Bool)
            = (fun a => decide (k a = k y)) := by
          funext a
          by_cases hpa : k a = k y
          · simp [hpa, hne]
          · simp [hpa]
        rw [hpe] at hfind
        exact hfind

theorem dedupByName_find {α : Type} (k : α → String) (l : List α) {y : α}
    (hy : y ∈ dedupByName k l) : l.find? (fun x => k x = k y) = some y :=
  dedupByName_find_aux k l.length l (Nat.le_refl _) y hy

theorem dedupByName_complete_aux {α : Type} (k : α → String) :
    ∀ n (l : List α), l.length ≤ n → ∀ x ∈ l,
      ∃ y ∈ dedupByName k l, k y = k x := by
  intro n
  induction n with
  | zero =>
    intro l hl x hx
    rw [List.length_eq_zero.mp (Nat.le_zero.mp hl)] at hx
    cases hx
  | succ n ih =>
    intro l hl x hx
    cases l with
    | nil => cases hx
    | cons z zs =>
      rw [dedupByName_cons]
      rcases List.mem_cons.mp hx with h | h
      · exact ⟨z, List.mem_cons_self _ _, h ▸ rfl⟩
      · by_cases hkz : k x = k z
        · exact ⟨z, List.mem_cons_self _ _, hkz.symm⟩
        · have hxf : x ∈ zs.filter (fun y => k y ≠ k z) :=
            List.mem_filter.mpr ⟨h, by simpa using hkz⟩
          have hlen : (zs.filter (fun y => k y ≠ k z)).length ≤ n := by
            have := List.length_filter_le (fun y => decide (k y ≠ k z)) zs
            simp only [List.length_cons] at hl
            omega
          obtain ⟨y, hy, hky⟩ := ih _ hlen x hxf
          exact ⟨y, List.mem_cons_of_mem _ hy, hky⟩

theorem dedupByName_complete {α : Type} (k : α → String) (l : List α) {x : α}
    (hx : x ∈ l) : ∃ y ∈ dedupByName k l, k y = k x :=
  dedupByName_complete_aux k l.length l (Nat.le_refl _) x hx

theorem getContainerR_calls (s : Backend) (now : Int) (cid : Nat) :
    (getContainerR s now cid).2 = [.getCnr cid] := by
  cases h : cnrGet s cid <;> simp [getContainerR, h]

theorem listCnrsAux_eq (s : Backend) (now : Int) (f : Nat → ContainerInfo) :
    ∀ (ids : List Nat) (seen : List String),
      (∀ cid ∈ ids, (getContainerR s now cid).1 = .ok (f cid)) →
      (listCnrsAux s now ids seen).1 =
        .ok (dedupByName ContainerInfo.name
              ((ids.map f).filter (fun c => decide (c.name ∉ seen)))) := by
  intro ids
  induction ids with
  | nil =>
    intro seen _
    simp [listCnrsAux, dedupByName]
  | cons cid rest ih =>
    intro seen hok
    have hhead : (getContainerR s now cid).1 = .ok (f cid) :=
      hok cid (List.mem_cons_self _ _)
    rcases hG : getContainerR s now cid with ⟨r, cs⟩
    rw [hG] at hhead
    simp only at hhead
    subst hhead
    have hrest : ∀ c ∈ rest, (getContainerR s now c).1 = .ok (f c) :=
      fun c hc => hok c (List.mem_cons_of_mem _ hc)
    by_cases hmem : (f cid).name ∈ seen
    · rcases hA : listCnrsAux s now rest seen with ⟨r2, cs2⟩
      simp only [listCnrsAux, hG, hA, if_pos hmem]
      have := ih seen hrest
      rw [hA] at this
      simp only at this
      rw [this]
      congr 1
      simp only [List.map_cons, List.filter_cons]
      rw [if_neg (by simp [hmem])]
    · rcases hA : listCnrsAux s now rest ((f cid).name :: seen) with ⟨r2, cs2⟩
      have := ih ((f cid).name :: seen) hrest
      rw [hA] at this
      simp only at this
      subst this
      simp only [listCnrsAux, hG, hA, if_neg hmem]
      simp only [List.map_cons, List.filter_cons]
      rw [if_pos (by simp [hmem])]
      rw [dedupByName_cons]
      congr 2
      rw [List.filter_filter]
      apply congrArg
      apply List.filter_congr
      intro a _
      by_cases h1 : a.name = (f cid).name <;> by_cases h2 : a.name ∈ seen <;>
        simp [h1, h2]

theorem listObjectsAux_eq (s : Backend) (now : Int) (cnrID : Nat) (f : Nat → ObjectInfo) :
    ∀ (ids : List Nat) (seen : List String),
      (∀ oid ∈ ids, (getObjectFileR s now cnrID oid).1 = .ok (f oid)) →
      (listObjectsAux s now cnrID ids seen).1 =
        .ok (dedupByName ObjectInfo.name
              ((ids.map f).filter (fun o => decide (o.name ∉ seen)))) := by
  intro ids
  induction ids with
  | nil =>
    intro seen _
    simp [listObjectsAux, dedupByName]
  | cons oid rest ih =>
    intro seen hok
    have hhead : (getObjectFileR s now cnrID oid).1 = .ok (f oid) :=
      hok oid (List.mem_cons_self _ _)
    rcases hG : getObjectFileR s now cnrID oid with ⟨r, cs⟩
    rw [hG] at hhead
    simp only at hhead
    subst hhead
    have hrest : ∀ o ∈ rest, (getObjectFileR s now cnrID o).1 = .ok (f o) :=
      fun o ho => hok o (List.mem_cons_of_mem _ ho)
    by_cases hmem : (f oid).name ∈ seen
    · rcases hA : listObjectsAux s now cnrID rest seen with ⟨r2, cs2⟩
      simp only [listObjectsAux, hG, hA, if_pos hmem]
      have := ih seen hrest
      rw [hA] at this
      simp only at this
      rw [this]
      congr 1
      simp only [List.map_cons, List.filter_cons]
      rw [if_neg (by simp [hmem])]
    · rcases hA : listObjectsAux s now cnrID rest ((f oid).name :: seen) with ⟨r2, cs2⟩
      have := ih ((f oid).name :: seen) hrest
      rw [hA] at this
      simp only at this
      subst this
      simp only [listObjectsAux, hG, hA, if_neg hmem]
      simp only [List.map_cons, List.filter_cons]
      rw [if_pos (by simp [hmem])]
      rw [dedupByName_cons]
      congr 2
      rw [List.filter_filter]
      apply congrArg
      apply List.filter_congr
      intro a _
      by_cases h1 : a.name = (f oid).name <;> by_cases h2 : a.name ∈ seen <;>
        simp [h1, h2]

theorem listObjectsR_dedup
    (s : Backend) (now : Int) (cnrID : Nat)
    (hhf : s.headFail = [])
    (hoidU : (s.objects.map Obj.id).Nodup) :
    (listObjectsR s now cnrID).1 =
      .ok (dedupByName ObjectInfo.name (objEnumInfos s now cnrID)) := by
  have hok : ∀ oid ∈ searchRoot s cnrID,
      (getObjectFileR s now cnrID oid).1 =
        .ok ((fun i => buildObjInfo now cnrID
          ((findObj s cnrID i).getD { id := 0, cnr := 0, root := false, attrs := [], payload := [] })) oid) := by
    intro oid hmem
    simp only [searchRoot, List.mem_map] at hmem
    obtain ⟨o, ho, rfl⟩ := hmem
    have hfilter := List.mem_filter.mp ho
    have hcnr : o.cnr = cnrID := by
      have := hfilter.2
      simp only [Bool.and_eq_true, decide_eq_true_eq] at this
      exact this.2
    have hfind : findObj s cnrID o.id = some o := by
      apply find?_unique_key Obj.id hoidU hfilter.1
      · simp [hcnr]
      · intro x hx
        simp only [Bool.and_eq_true, decide_eq_true_eq] at hx
        exact hx.1
    simp [getObjectFileR, headObject, hhf, hfind]
  have hmapf : (searchRoot s cnrID).map
      (fun i => buildObjInfo now cnrID
        ((findObj s cnrID i).getD { id := 0, cnr := 0, root := false, attrs := [], payload := [] }))
      = objEnumInfos s now cnrID := by
    simp only [searchRoot, objEnumInfos, List.map_map]
    apply List.map_congr_left
    intro o ho
    have hfilter := List.mem_filter.mp ho
    have hcnr : o.cnr = cnrID := by
      have := hfilter.2
      simp only [Bool.and_eq_true, decide_eq_true_eq] at this
      exact this.2
    have hfind : findObj s cnrID o.id = some o := by
      apply find?_unique_key Obj.id hoidU hfilter.1
      · simp [hcnr]
      · intro x hx
        simp only [Bool.and_eq_true, decide_eq_true_eq] at hx
        exact hx.1
    simp [Function.comp, hfind]
  have hlist := listObjectsAux_eq s now cnrID
    (fun i => buildObjInfo now cnrID
      ((findObj s cnrID i).getD { id := 0, cnr := 0, root := false, attrs := [], payload := [] }))
    (searchRoot s cnrID) [] hok
  simp only [List.not_mem_nil, not_false_iff, decide_True, List.filter_true] at hlist
  rw [hmapf] at hlist
  rcases hA : listObjectsAux s now cnrID (searchRoot s cnrID) [] with ⟨r, cs⟩
  rw [hA] at hlist
  simp only at hlist
  simp only [listObjectsR, hA]
  exact hlist

theorem containersListR_dedup
    (s : Backend) (cfg : AppCfg) (now : Int)
    (hcf : s.cnrGetFail = [])
    (hcidU : (s.containers.map Cnr.id).Nodup) :
    (containersListR s cfg now).1 =
      .ok (dedupByName ContainerInfo.name (cnrEnumInfos s cfg now)) := by
  have hok : ∀ cid ∈ cnrList s cfg.owner,
      (getContainerR s now cid).1 =
        .ok ((fun i =>
          match s.containers.find? (fun c => c.id = i) with
          | some c =>
            { CID := i
              FileName := if c.name.length ≠ 0 then c.name else encodeId i
              Created := if c.createdAt.getD goZeroTime = goZeroTime then goZeroTime else now }
          | none => { CID := 0, FileName := "", Created := 0 }) cid) := by
    intro cid hmem
    simp only [cnrList, List.mem_map] at hmem
    obtain ⟨c, hc, rfl⟩ := hmem
    have hfilter := List.mem_filter.mp hc
    have hfind : s.containers.find? (fun x => x.id = c.id) = some c := by
      apply find?_unique_key Cnr.id hcidU hfilter.1
      · simp
      · intro x hx
        simpa using hx
    simp only [getContainerR, cnrGet, hcf, hfind]
    rw [if_neg (by simp)]
    split <;> simp_all
  have hmapf : (cnrList s cfg.owner).map
      (fun i =>
        match s.containers.find? (fun c => c.id = i) with
        | some c =>
          { CID := i
            FileName := if c.name.length ≠ 0 then c.name else encodeId i
            Created := if c.createdAt.getD goZeroTime = goZeroTime then goZeroTime else now }
        | none => { CID := 0, FileName := "", Created := 0 })
      = cnrEnumInfos s cfg now := by
    simp only [cnrList, cnrEnumInfos, List.map_map]
    apply List.map_congr_left
    intro c hc
    have hfilter := List.mem_filter.mp hc
    have hfind : s.containers.find? (fun x => x.id = c.id) = some c := by
      apply find?_unique_key Cnr.id hcidU hfilter.1
      · simp
      · intro x hx
        simpa using hx
    simp [Function.comp, hfind]
  have hlist := listCnrsAux_eq s now
    (fun i =>
      match s.containers.find? (fun c => c.id = i) with
      | some c =>
        { CID := i
          FileName := if c.name.length ≠ 0 then c.name else encodeId i
          Created := if c.createdAt.getD goZeroTime = goZeroTime then goZeroTime else now }
      | none => { CID := 0, FileName := "", Created := 0 })
    (cnrList s cfg.owner) [] hok
  simp only [List.not_mem_nil, not_false_iff, decide_True, List.filter_true] at hlist
  rw [hmapf] at hlist
  rcases hA : listCnrsAux s now (cnrList s cfg.owner) [] with ⟨r, cs⟩
  rw [hA] at hlist
  simp only at hlist
  simp only [containersListR, hA]
  exact hlist

theorem filewriteV1_ok_buffer {s : Backend} {cfg : AppCfg} {now : Int} {path : String}
    {w : WriterV1} {cs : List BCall}
    (h : filewriteV1 s cfg now path = (.ok w, cs)) : w.buffer = [] := by
  simp only [filewriteV1] at h
  by_cases hro : cfg.readOnly
  · rw [if_pos hro] at h
    simp at h
  · rw [if_neg hro] at h
    rcases hG : getContainerByNameR s cfg now
        ((goSplit (goTrim path "/")).headD "") with ⟨r, cs0⟩
    rw [hG] at h
    cases r with
    | ok cnr =>
      simp only [rbind] at h
      rw [Prod.mk.injEq] at h
      have := h.1
      injection this with hw
      rw [← hw]
    | fail e => simp [rbind] at h
    | crashed => simp [rbind] at h

theorem writeAllAt_buffer (chunks : List (List Nat)) :
    ∀ w : WriterV1, (writeAllAt w chunks).buffer = w.buffer ++ chunks.flatten ∧
      (writeAllAt w chunks).file = w.file := by
  induction chunks with
  | nil => intro w; simp [writeAllAt]
  | cons p ps ih =>
    intro w
    simp only [writeAllAt, objWriterWriteAt]
    rw [if_neg (show ¬((w.buffer.length : Int) ≠ (w.buffer.length : Int)) by simp)]
    dsimp only
    obtain ⟨h1, h2⟩ := ih { w with buffer := w.buffer ++ p }
    rw [h1, h2]
    simp

theorem getFileStat_object_path
    (s1 : Backend) (cfg : AppCfg) (nowR : Int) (getPath bname : String) (oid : Nat)
    (cnr : ContainerInfo) (newObj : Obj) (csR : List BCall)
    (hsplit : goSplit (goTrim getPath "/") = [bname, encodeId oid])
    (hres : getContainerByNameR s1 cfg nowR bname = (.ok cnr, csR))
    (hhf : oid ∉ s1.headFail)
    (hfind : findObj s1 cnr.CID oid = some newObj) :
    (getFileStatR s1 cfg nowR getPath).1 = .ok (.objE (buildObjInfo nowR cnr.CID newObj)) ∧
    (filelistR s1 cfg nowR "Stat" getPath).1 = .ok [.objE (buildObjInfo nowR cnr.CID newObj)] ∧
    (filereadR s1 cfg nowR getPath).1 = .ok (buildObjInfo nowR cnr.CID newObj) := by
  have hne : goTrim getPath "/" ≠ "" := by
    intro h
    rw [h] at hsplit
    have : goSplit "" = [""] := by decide
    rw [this] at hsplit
    simp at hsplit
  have hstat : (getFileStatR s1 cfg nowR getPath).1 = .ok (.objE (buildObjInfo nowR cnr.CID newObj)) := by
    simp only [getFileStatR, if_neg hne, hsplit, List.headD_cons, hres, rbind]
    rw [if_pos ⟨rfl, by simpa using encodeId_ne_empty oid⟩]
    simp only [List.getD_cons_succ, List.getD_cons_zero, decodeId_encodeId]
    simp only [getObjectFileR, headObject, if_neg hhf, hfind, rbind]
  refine ⟨hstat, ?_, ?_⟩
  · rcases hG : getFileStatR s1 cfg nowR getPath with ⟨r, cs⟩
    rw [hG] at hstat
    simp only at hstat
    subst hstat
    simp [filelistR, hG, rbind]
  · rcases hG : getFileStatR s1 cfg nowR getPath with ⟨r, cs⟩
    rw [hG] at hstat
    simp only at hstat
    subst hstat
    simp [filereadR, hG, rbind]

/-! ## Claims -/

/-- C1, counterexample: after writing 23 bytes to `/b1/report.txt` through the
in-memory writer and closing successfully, a Get (and a Stat) on that same
two-segment path fails with the identifier-decode error instead of returning
the written bytes: the read/stat resolution decodes the second segment as an
object identifier, never as a display name. -/
theorem c1_counterexample :
    filewriteV1 fixS fixCfg 0 "/b1/report.txt" = (.ok fixW, [.listCnrs 7, .getCnr 1]) ∧
    (closeV1 fixS 0 (writeAllAt fixW [List.range 23])).1 = .ok () ∧
    (filereadR (closeV1 fixS 0 (writeAllAt fixW [List.range 23])).2.1 fixCfg 0
        "/b1/report.txt").1 = .fail .decodeFail ∧
    (filelistR (closeV1 fixS 0 (writeAllAt fixW [List.range 23])).2.1 fixCfg 0
        "Stat" "/b1/report.txt").1 = .fail .decodeFail := by
  exact ⟨by decide, by decide, by decide, by decide⟩

/-- C1, amended: for every successful write of `chunks` (appended
sequentially through the in-memory Writer bound by `Filewrite`) followed by a
successful Close, a Get on the two-segment path `/<bucket>/<objectID>` naming
the backend-assigned identifier of the new object returns a Reader whose
ranged reads with any buffer size `B ≥ 1`, iterated to end-of-stream, yield
exactly the written bytes, and a Stat on that path reports exactly that size
and a non-directory entry.  (A Get on the original `/<bucket>/<name>` path is
refuted by the counterexample: read paths decode the second segment as an
identifier.) -/
theorem c1_amended_roundtrip
    (s : Backend) (cfg : AppCfg) (nowW nowC nowR : Int)
    (putPath getPath bname : String) (chunks : List (List Nat))
    (w : WriterV1) (csW csR : List BCall) (cnr : ContainerInfo) (B : Nat)
    (hfw : filewriteV1 s cfg nowW putPath = (.ok w, csW))
    (hsplit : goSplit (goTrim getPath "/") = [bname, encodeId s.nextOid])
    (hres : getContainerByNameR (closeV1 s nowC (writeAllAt w chunks)).2.1 cfg nowR bname
        = (.ok cnr, csR))
    (hcid : cnr.CID = w.file.Container.CID)
    (hfresh : ∀ o ∈ s.objects, o.id ≠ s.nextOid)
    (hhf : s.nextOid ∉ s.headFail)
    (hB : 1 ≤ B) :
    ∃ info : ObjectInfo,
      (closeV1 s nowC (writeAllAt w chunks)).1 = .ok () ∧
      (getFileStatR (closeV1 s nowC (writeAllAt w chunks)).2.1 cfg nowR getPath).1
        = .ok (.objE info) ∧
      (filelistR (closeV1 s nowC (writeAllAt w chunks)).2.1 cfg nowR "Stat" getPath).1
        = .ok [.objE info] ∧
      (filereadR (closeV1 s nowC (writeAllAt w chunks)).2.1 cfg nowR getPath).1 = .ok info ∧
      info.size = (chunks.flatten.length : Int) ∧
      info.isDir = false ∧
      readFully (closeV1 s nowC (writeAllAt w chunks)).2.1 info B (chunks.flatten.length + 1)
        = .ok chunks.flatten := by
  have hbuf : w.buffer = [] := filewriteV1_ok_buffer hfw
  obtain ⟨hwb, hwf⟩ := writeAllAt_buffer chunks w
  have hpay : (writeAllAt w chunks).buffer = chunks.flatten := by
    rw [hwb, hbuf, List.nil_append]
  have hfind : findObj (closeV1 s nowC (writeAllAt w chunks)).2.1 cnr.CID s.nextOid =
      some { id := s.nextOid
             cnr := (writeAllAt w chunks).file.Container.CID
             root := true
             attrs := [("FileName", (writeAllAt w chunks).file.name),
                       ("Timestamp", toString nowC)]
             payload := (writeAllAt w chunks).buffer } := by
    show (s.objects ++ [_]).find? _ = _
    rw [List.find?_append]
    rw [List.find?_eq_none.mpr (fun o ho => by simp [hfresh o ho])]
    rw [Option.none_or]
    rw [List.find?_cons_of_pos _ (by simp [hwf, hcid])]
  obtain ⟨hstat, hlist, hread⟩ := getFileStat_object_path
    (closeV1 s nowC (writeAllAt w chunks)).2.1 cfg nowR getPath bname s.nextOid cnr _ csR
    hsplit hres hhf hfind
  refine ⟨_, rfl, hstat, hlist, hread, ?_, rfl, ?_⟩
  · rw [ObjectInfo.size, buildObjInfo_payloadSize]
    rw [hpay]
  · have hsz : (buildObjInfo nowR cnr.CID
        { id := s.nextOid
          cnr := (writeAllAt w chunks).file.Container.CID
          root := true
          attrs := [("FileName", (writeAllAt w chunks).file.name),
                    ("Timestamp", toString nowC)]
          payload := (writeAllAt w chunks).buffer }).PayloadSize
        = ((chunks.flatten.length : Nat) : Int) := by
      rw [buildObjInfo_payloadSize, hpay]
    have hfind2 : findObj (closeV1 s nowC (writeAllAt w chunks)).2.1
        (buildObjInfo nowR cnr.CID
          { id := s.nextOid
            cnr := (writeAllAt w chunks).file.Container.CID
            root := true
            attrs := [("FileName", (writeAllAt w chunks).file.name),
                      ("Timestamp", toString nowC)]
            payload := (writeAllAt w chunks).buffer }).Container.CID
        (buildObjInfo nowR cnr.CID
          { id := s.nextOid
            cnr := (writeAllAt w chunks).file.Container.CID
            root := true
            attrs := [("FileName", (writeAllAt w chunks).file.name),
                      ("Timestamp", toString nowC)]
            payload := (writeAllAt w chunks).buffer }).ObjectID
        = some { id := s.nextOid
                 cnr := (writeAllAt w chunks).file.Container.CID
                 root := true
                 attrs := [("FileName", (writeAllAt w chunks).file.name),
                           ("Timestamp", toString nowC)]
                 payload := (writeAllAt w chunks).buffer } := by
      rw [buildObjInfo_container, buildObjInfo_objectID]
      exact hfind
    have := readLoop_spec (closeV1 s nowC (writeAllAt w chunks)).2.1
      (buildObjInfo nowR cnr.CID
        { id := s.nextOid
          cnr := (writeAllAt w chunks).file.Container.CID
          root := true
          attrs := [("FileName", (writeAllAt w chunks).file.name),
                    ("Timestamp", toString nowC)]
          payload := (writeAllAt w chunks).buffer })
      { id := s.nextOid
        cnr := (writeAllAt w chunks).file.Container.CID
        root := true
        attrs := [("FileName", (writeAllAt w chunks).file.name),
                  ("Timestamp", toString nowC)]
        payload := (writeAllAt w chunks).buffer }
      B hfind2 (by rw [buildObjInfo_payloadSize]) hB
      (chunks.flatten.length + 1) 0 [] (Nat.zero_le _)
      (by dsimp only; rw [hpay]; omega)
    rw [readFully, this, List.nil_append, List.drop_zero, hpay]

/-- C1, witness: the amended round trip evaluated on a concrete store,
writing `[1,2,3]` then `[4]` and reading back through `/b1/#xxxxx`. -/
theorem c1_witness :
    ∃ info : ObjectInfo,
      (closeV1 fixS 0 (writeAllAt fixW [[1, 2, 3], [4]])).1 = .ok () ∧
      (getFileStatR (closeV1 fixS 0 (writeAllAt fixW [[1, 2, 3], [4]])).2.1 fixCfg 0
          "/b1/#xxxxx").1 = .ok (.objE info) ∧
      (filelistR (closeV1 fixS 0 (writeAllAt fixW [[1, 2, 3], [4]])).2.1 fixCfg 0
          "Stat" "/b1/#xxxxx").1 = .ok [.objE info] ∧
      (filereadR (closeV1 fixS 0 (writeAllAt fixW [[1, 2, 3], [4]])).2.1 fixCfg 0
          "/b1/#xxxxx").1 = .ok info ∧
      info.size = ((([[1, 2, 3], [4]] : List (List Nat)).flatten.length : Nat) : Int) ∧
      info.isDir = false ∧
      readFully (closeV1 fixS 0 (writeAllAt fixW [[1, 2, 3], [4]])).2.1 info 2
          (([[1, 2, 3], [4]] : List (List Nat)).flatten.length + 1)
        = .ok ([[1, 2, 3], [4]] : List (List Nat)).flatten :=
  c1_amended_roundtrip fixS fixCfg 0 0 0 "/b1/report.txt" "/b1/#xxxxx" "b1"
    [[1, 2, 3], [4]] fixW [.listCnrs 7, .getCnr 1] [.listCnrs 7, .getCnr 1] fixCnrInfo 2
    (by decide) (by decide) (by decide) (by decide) (by decide) (by decide) (by decide)

/-- C2, counterexample: for an object of size 3, a read at offset 0 with a
buffer of length 3 returns all 3 bytes, so `o + returned-length = S`, yet the
reader signals no end-of-stream — refuting the claimed "EOF iff
o + returned-length = S". -/
theorem c2_counterexample :
    (objReaderReadAt fixSObj fixInfo 3 0).1 = .okR [10, 20, 30] ∧
    (0 : Int) + 3 = fixInfo.PayloadSize ∧
    (objReaderReadAt fixSObj fixInfo 3 0).1.isEof = false := by
  exact ⟨by decide, by decide, by decide⟩

/-- C2, amended: a read at offset `0 ≤ o < S` with buffer length `L` issues
exactly one backend range fetch for `[o, o + min(L, S−o))`, returns
`min(L, S−o)` bytes (the backend serving the requested range in full), and
signals end-of-stream iff the remaining length `S − o` is strictly smaller
than `L` (equivalently, iff the returned length is strictly smaller than the
buffer length); in particular a buffer exactly covering the remaining bytes
is answered in full with no end-of-stream signal. -/
theorem c2_amended_range_clamp (s : Backend) (fi : ObjectInfo) (o : Obj) (L : Nat) (off : Int)
    (hfind : findObj s fi.Container.CID fi.ObjectID = some o)
    (hsz : fi.PayloadSize = (o.payload.length : Int))
    (h0 : 0 ≤ off) (hlt : off < fi.PayloadSize) :
    (objReaderReadAt s fi L off).2 =
      [.rangeObj fi.Container.CID fi.ObjectID off.toNat
        (min L (o.payload.length - off.toNat))] ∧
    (objReaderReadAt s fi L off).1.out =
      (o.payload.drop off.toNat).take (min L (o.payload.length - off.toNat)) ∧
    (objReaderReadAt s fi L off).1.out.length = min L (o.payload.length - off.toNat) ∧
    ((objReaderReadAt s fi L off).1.isEof = true ↔ o.payload.length - off.toNat < L) := by
  have hlen : ((o.payload.drop off.toNat).take (min L (o.payload.length - off.toNat))).length
      = min L (o.payload.length - off.toNat) := by
    have hltN : off.toNat < o.payload.length := by
      rw [hsz] at hlt
      omega
    simp only [List.length_take, List.length_drop]
    omega
  rw [objReaderReadAt_spec s fi o L off hfind hsz h0 hlt]
  by_cases hc : o.payload.length - off.toNat < L
  · rw [if_pos hc]
    refine ⟨rfl, rfl, hlen, by simp [ReadRes.isEof, hc]⟩
  · rw [if_neg hc]
    refine ⟨rfl, rfl, hlen, by simp [ReadRes.isEof, hc]⟩

/-- C2, witness: the amended range clamp at offset 1, buffer length 7, on a
three-byte object: one fetch of `[1,3)`, two bytes, end-of-stream. -/
theorem c2_amended_witness :
    (objReaderReadAt fixSObj fixInfo 7 1).2 = [.rangeObj 1 2 1 2] ∧
    (objReaderReadAt fixSObj fixInfo 7 1).1.out = [20, 30] ∧
    (objReaderReadAt fixSObj fixInfo 7 1).1.out.length = 2 ∧
    ((objReaderReadAt fixSObj fixInfo 7 1).1.isEof = true ↔ (2 : Nat) < 7) := by
  have h := c2_amended_range_clamp fixSObj fixInfo fixObj 7 1 (by decide) (by decide)
    (by decide) (by decide)
  exact h

/-- C3: a read at a negative offset fails before any backend call, and a
read at an offset at or beyond the reported size returns zero bytes with the
end-of-stream signal, never an error, also without any backend call. -/
theorem c3_offset_invariants (s : Backend) (fi : ObjectInfo) (L : Nat) (off : Int) :
    (off < 0 → objReaderReadAt s fi L off = (.fail .negOffset, [])) ∧
    (0 ≤ off → fi.PayloadSize ≤ off → objReaderReadAt s fi L off = (.eofR [], [])) := by
  constructor
  · intro h
    simp [objReaderReadAt, h]
  · intro h1 h2
    rw [objReaderReadAt, if_neg (by omega), if_pos h2]

/-- C3, witness: offsets −1 and 99 against a three-byte object. -/
theorem c3_witness :
    objReaderReadAt fixSObj fixInfo 4 (-1) = (.fail .negOffset, []) ∧
    objReaderReadAt fixSObj fixInfo 4 99 = (.eofR [], []) :=
  ⟨(c3_offset_invariants fixSObj fixInfo 4 (-1)).1 (by decide),
   (c3_offset_invariants fixSObj fixInfo 4 99).2 (by decide) (by decide)⟩

/-- C4, counterexample: a Stat on `/b1/b/c` — three non-empty segments — is
not rejected with an unsupported-operation error: it resolves the first
segment and returns the bucket entry, issuing backend calls on the way. -/
theorem c4_counterexample :
    (filelistR fixS fixCfg 0 "Stat" "/b1/b/c").1 = .ok [.cnrE fixCnrInfo] ∧
    (filelistR fixS fixCfg 0 "Stat" "/b1/b/c").2 = [.listCnrs 7, .getCnr 1] := by
  exact ⟨by decide, by decide⟩

/-- C4, amended: no operation except the container-creating variant's Mkdir
enforces the depth limit.  On a path of three or more segments whose first
segment resolves, Stat returns the first segment's bucket entry (ignoring
the rest), Remove/Rmdir falls through to deleting the first segment's whole
bucket, and only Mkdir rejects the path (with the first-level-dirs error and
no backend call). -/
theorem c4_amended_no_depth_limit
    (s : Backend) (cfg : AppCfg) (now : Int) (path a b c : String) (rest : List String)
    (cnr : ContainerInfo) (csr : List BCall)
    (hro : cfg.readOnly = false)
    (hsplit : goSplit (goTrim path "/") = a :: b :: c :: rest)
    (hres : getContainerByNameR s cfg now a = (.ok cnr, csr)) :
    (getFileStatR s cfg now path).1 = .ok (.cnrE cnr) ∧
    deleteNeofsFileR s cfg now path =
      ((containerDelete s cnr.CID).1, (containerDelete s cnr.CID).2.1,
        csr ++ (containerDelete s cnr.CID).2.2) ∧
    filecmdV2 s cfg now "Mkdir" path = (.fail .mkdirDepth, s, []) := by
  have hne : goTrim path "/" ≠ "" := by
    intro h
    rw [h] at hsplit
    have : goSplit "" = [""] := by decide
    rw [this] at hsplit
    simp at hsplit
  refine ⟨?_, ?_, ?_⟩
  · simp only [getFileStatR, if_neg hne, hsplit]
    simp only [List.headD_cons, hres, rbind]
    rw [if_neg (by simp)]
  · simp only [deleteNeofsFileR, hsplit]
    simp only [List.headD_cons, hres]
    rw [if_neg (by simp)]
  · unfold filecmdV2
    rw [if_neg (by simp [hro]), if_pos rfl, if_pos (by rw [hsplit]; simp)]

/-- C4, witness: the amended behavior evaluated on `/b1/b/c`. -/
theorem c4_witness :
    (getFileStatR fixS fixCfg 0 "/b1/b/c").1 = .ok (.cnrE fixCnrInfo) ∧
    deleteNeofsFileR fixS fixCfg 0 "/b1/b/c" =
      ((containerDelete fixS 1).1, (containerDelete fixS 1).2.1,
        [.listCnrs 7, .getCnr 1] ++ (containerDelete fixS 1).2.2) ∧
    filecmdV2 fixS fixCfg 0 "Mkdir" "/b1/b/c" = (.fail .mkdirDepth, fixS, []) :=
  c4_amended_no_depth_limit fixS fixCfg 0 "/b1/b/c" "b1" "b" "c" [] fixCnrInfo
    [.listCnrs 7, .getCnr 1] (by decide) (by decide) (by decide)

/-- C5: with read-only mode off and a decodable default policy, Mkdir on a
path whose trimmed form is a single segment creates a container whose display
name is that segment, with the default placement policy, private basic ACL
and the configured identity as owner; Mkdir on a path splitting into more
than one segment fails with the first-level-dirs error, leaving the store
untouched and issuing no backend call. -/
theorem c5_mkdir (s : Backend) (cfg : AppCfg) (now : Int) (path seg : String)
    (hro : cfg.readOnly = false) (hpol : cfg.defaultPolicy ≠ "") :
    (goSplit (goTrim path "/") = [seg] →
      filecmdV2 s cfg now "Mkdir" path =
        (.ok (),
         { s with
           containers := s.containers ++
             [{ id := s.nextCid, owner := cfg.owner, name := seg, createdAt := some now,
                policy := cfg.defaultPolicy, acl := .priv }],
           nextCid := s.nextCid + 1 },
         [.putCnr seg])) ∧
    (1 < (goSplit (goTrim path "/")).length →
      filecmdV2 s cfg now "Mkdir" path = (.fail .mkdirDepth, s, [])) := by
  constructor
  · intro hsplit
    have hseg : seg = goTrim path "/" := goSplit_singleton hsplit
    unfold filecmdV2
    rw [if_neg (by simp [hro]), if_pos rfl, if_neg (by rw [hsplit]; simp)]
    unfold putContainerR decodePolicy
    rw [if_neg hpol, ← hseg]
  · intro hlen
    unfold filecmdV2
    rw [if_neg (by simp [hro]), if_pos rfl, if_pos hlen]

/-- C5, witness: Mkdir on `/newdir` creates the container; Mkdir on `/a/b`
fails and creates nothing. -/
theorem c5_witness :
    filecmdV2 fixS fixCfg 11 "Mkdir" "/newdir" =
      (.ok (),
       { fixS with
         containers := fixS.containers ++
           [{ id := 2, owner := 7, name := "newdir", createdAt := some 11,
              policy := "REP 1", acl := .priv }],
         nextCid := 3 },
       [.putCnr "newdir"]) ∧
    filecmdV2 fixS fixCfg 11 "Mkdir" "/a/b" = (.fail .mkdirDepth, fixS, []) :=
  ⟨(c5_mkdir fixS fixCfg 11 "/newdir" "newdir" (by decide) (by decide)).1 (by decide),
   (c5_mkdir fixS fixCfg 11 "/a/b" "a" (by decide) (by decide)).2 (by decide)⟩

/-- C6: the code evaluated at the failing inputs.  A container whose stored
creation timestamp is the non-zero 1700000000 yields an entry created "now"
(1725000000), not the stored time; a container without a stored timestamp
yields the zero time, not "now".  The `IsZero` comparison in `getContainer`
is inverted relative to the claim (and to the object-entry path). -/
theorem c6_timestamp_inverted :
    (getContainerR fixS6 1725000000 1).1 =
      .ok { CID := 1, FileName := "b", Created := 1725000000 } ∧
    (1725000000 : Int) ≠ 1700000000 ∧
    (getContainerR fixS6 1725000000 2).1 =
      .ok { CID := 2, FileName := encodeId 2, Created := goZeroTime } ∧
    goZeroTime ≠ (1725000000 : Int) := by
  refine ⟨by decide, by decide, by decide, by decide⟩

/-- C7: the code evaluated at the failing input.  When the head of the only
enumerated object fails, `listObjects` does not propagate the error: the
callback tests the stale outer `err` (never non-nil there) instead of
`inErr`, so the nil entry is dereferenced — a crash, not an error return.
`listContainers`, by contrast, does fail fast on a container fetch error. -/
theorem c7_listing_error_handling :
    listObjectsR fixS7 0 1 = (.crashed, [.searchObjs 1 none, .headObj 1 5]) ∧
    (containersListR fixS7b fixCfg 0).1 = .fail .backend := by
  exact ⟨by decide, by decide⟩

/-- C8: with all per-entry fetches succeeding and backend identifiers
unique, listing a bucket (and listing the buckets) returns the first-seen
deduplication of the enumeration-order entries: the returned display names
are pairwise distinct, every returned entry is the first enumerated entry
bearing its name, and every enumerated name is represented. -/
theorem c8_dedup_first_seen
    (s : Backend) (cfg : AppCfg) (now : Int) (cnrID : Nat)
    (hhf : s.headFail = [])
    (hoidU : (s.objects.map Obj.id).Nodup)
    (hcf : s.cnrGetFail = [])
    (hcidU : (s.containers.map Cnr.id).Nodup) :
    ((listObjectsR s now cnrID).1 =
        .ok (dedupByName ObjectInfo.name (objEnumInfos s now cnrID)) ∧
      ((dedupByName ObjectInfo.name (objEnumInfos s now cnrID)).map ObjectInfo.name).Nodup ∧
      (∀ e ∈ dedupByName ObjectInfo.name (objEnumInfos s now cnrID),
        (objEnumInfos s now cnrID).find? (fun x => x.name = e.name) = some e) ∧
      (∀ x ∈ objEnumInfos s now cnrID,
        ∃ e ∈ dedupByName ObjectInfo.name (objEnumInfos s now cnrID), e.name = x.name)) ∧
    ((containersListR s cfg now).1 =
        .ok (dedupByName ContainerInfo.name (cnrEnumInfos s cfg now)) ∧
      ((dedupByName ContainerInfo.name (cnrEnumInfos s cfg now)).map ContainerInfo.name).Nodup ∧
      (∀ e ∈ dedupByName ContainerInfo.name (cnrEnumInfos s cfg now),
        (cnrEnumInfos s cfg now).find? (fun x => x.name = e.name) = some e) ∧
      (∀ x ∈ cnrEnumInfos s cfg now,
        ∃ e ∈ dedupByName ContainerInfo.name (cnrEnumInfos s cfg now), e.name = x.name)) :=
  ⟨⟨listObjectsR_dedup s now cnrID hhf hoidU,
    dedupByName_nodup _ _,
    fun _ he => dedupByName_find _ _ he,
    fun _ hx => dedupByName_complete _ _ hx⟩,
   ⟨containersListR_dedup s cfg now hcf hcidU,
    dedupByName_nodup _ _,
    fun _ he => dedupByName_find _ _ he,
    fun _ hx => dedupByName_complete _ _ hx⟩⟩

/-- C8, witness: the deduplication evaluated on a store with two objects
sharing the name `dup` and two containers sharing the name `bb`. -/
theorem c8_witness :
    ((listObjectsR fixS8 0 1).1 =
        .ok (dedupByName ObjectInfo.name (objEnumInfos fixS8 0 1)) ∧
      ((dedupByName ObjectInfo.name (objEnumInfos fixS8 0 1)).map ObjectInfo.name).Nodup ∧
      (∀ e ∈ dedupByName ObjectInfo.name (objEnumInfos fixS8 0 1),
        (objEnumInfos fixS8 0 1).find? (fun x => x.name = e.name) = some e) ∧
      (∀ x ∈ objEnumInfos fixS8 0 1,
        ∃ e ∈ dedupByName ObjectInfo.name (objEnumInfos fixS8 0 1), e.name = x.name)) ∧
    ((containersListR fixS8 fixCfg 0).1 =
        .ok (dedupByName ContainerInfo.name (cnrEnumInfos fixS8 fixCfg 0)) ∧
      ((dedupByName ContainerInfo.name (cnrEnumInfos fixS8 fixCfg 0)).map ContainerInfo.name).Nodup ∧
      (∀ e ∈ dedupByName ContainerInfo.name (cnrEnumInfos fixS8 fixCfg 0),
        (cnrEnumInfos fixS8 fixCfg 0).find? (fun x => x.name = e.name) = some e) ∧
      (∀ x ∈ cnrEnumInfos fixS8 fixCfg 0,
        ∃ e ∈ dedupByName ContainerInfo.name (cnrEnumInfos fixS8 fixCfg 0), e.name = x.name)) :=
  c8_dedup_first_seen fixS8 fixCfg 0 1 (by decide) (by decide) (by decide) (by decide)

/-- C9: the in-memory `WriteAt` succeeds — appending `p` and returning
`len(p)` — exactly when the offset equals the current staged length; any
other offset fails with the unsupported error and leaves the buffer
untouched; no backend call is issued in either case. -/
theorem c9_writeAt_append_only (w : WriterV1) (p : List Nat) (off : Int) :
    (off = (w.buffer.length : Int) →
      objWriterWriteAt w p off = (.ok p.length, { file := w.file, buffer := w.buffer ++ p }, [])) ∧
    (off ≠ (w.buffer.length : Int) →
      objWriterWriteAt w p off = (.fail .unsupported, w, [])) ∧
    (objWriterWriteAt w p off).2.2 = [] := by
  refine ⟨fun h => ?_, fun h => ?_, ?_⟩
  · simp [objWriterWriteAt, h]
  · simp [objWriterWriteAt, h]
  · by_cases h : off = (w.buffer.length : Int) <;> simp [objWriterWriteAt, h]

/-- C9, witness: writing two bytes at offset 0 (accepted) and at offset 1
(rejected) on an empty staging buffer. -/
theorem c9_witness :
    objWriterWriteAt fixW [1, 2] 0 = (.ok 2, { file := fixW.file, buffer := [1, 2] }, []) ∧
    objWriterWriteAt fixW [1, 2] 1 = (.fail .unsupported, fixW, []) :=
  ⟨(c9_writeAt_append_only fixW [1, 2] 0).1 (by decide),
   (c9_writeAt_append_only fixW [1, 2] 1).2.1 (by decide)⟩

/-- C10: with read-only mode off, a Filecmd whose method is Setstat, Rename,
Link or Symlink returns success in both handler variants without touching
the backend, and Mkdir in the in-memory variant does the same. -/
theorem c10_silent_noop_methods
    (s : Backend) (cfg : AppCfg) (now : Int) (path method : String)
    (hro : cfg.readOnly = false)
    (hm : method = "Setstat" ∨ method = "Rename" ∨ method = "Link" ∨ method = "Symlink") :
    filecmdV1 s cfg now method path = (.ok (), s, []) ∧
    filecmdV2 s cfg now method path = (.ok (), s, []) ∧
    filecmdV1 s cfg now "Mkdir" path = (.ok (), s, []) := by
  rcases hm with rfl | rfl | rfl | rfl <;>
    exact ⟨by simp [filecmdV1, hro], by simp [filecmdV2, hro], by simp [filecmdV1, hro]⟩

/-- C10, witness: the silent no-op evaluated for Rename and the in-memory
Mkdir. -/
theorem c10_witness :
    filecmdV1 fixS fixCfg 0 "Rename" "/b1" = (.ok (), fixS, []) ∧
    filecmdV2 fixS fixCfg 0 "Rename" "/b1" = (.ok (), fixS, []) ∧
    filecmdV1 fixS fixCfg 0 "Mkdir" "/b1" = (.ok (), fixS, []) :=
  c10_silent_noop_methods fixS fixCfg 0 "/b1" "Rename" (by decide) (Or.inr (Or.inl rfl))
